import Mathlib

/- Verification of the bosminer client scheduling layer.

   Shallow embedding of src/open/bosminer/bosminer/src/client.rs and of the
   sender loop in src/open/bosminer/bosminer-am1-s9/src/test/work_generation.rs.
   Rust Arc identity is represented by an explicit numeric identity token
   (the value returned by get_unique_ptr); the f64 percentage share is
   represented by a rational number; fallible operations return Except.
   Mutation of a registry behind a mutex is represented by state passing:
   an operation that fails returns only the error, which models the Rust
   code paths that return Err without having modified self. -/

/- ----------------------------------------------------------------- -/
/- Data model: nodes, client handles, solutions (client.rs lines 50 to 186) -/
/- ----------------------------------------------------------------- -/

/-- Identity-relevant view of a node (Arc of dyn node::Client).  The field
unique_ptr stands for the address returned by node::Info::get_unique_ptr;
payload stands for every other part of the node state, irrelevant to
identity comparisons. -/
structure NodeInfo where
  unique_ptr : Nat
  payload : Nat
deriving DecidableEq, Repr

/-- Static view of client::Handle: the wrapped node plus the remaining
fields (descriptor and the rest), which never take part in equality. -/
structure ClientHandle where
  node : NodeInfo
  descriptor : Nat
deriving DecidableEq, Repr

/-- PartialEq for client::Handle (client.rs lines 179 to 186): Arc::ptr_eq on
the two nodes' get_unique_ptr results. -/
def client_handle_eq (a b : ClientHandle) : Bool :=
  a.node.unique_ptr == b.node.unique_ptr

/-- A resolved solution: origin is the node of the client that produced the
underlying job (work::Solution::origin). -/
structure Solution where
  origin : NodeInfo
  nonce : Nat
deriving DecidableEq, Repr

/-- Handle::matching_solution (client.rs lines 73 to 78): Arc::ptr_eq of the
handle node's unique pointer with the solution origin's unique pointer. -/
def matching_solution (h : ClientHandle) (s : Solution) : Bool :=
  h.node.unique_ptr == s.origin.unique_ptr

/- ----------------------------------------------------------------- -/
/- Dynamic handle state: enable, disable, start, stop, drop            -/
/- (client.rs lines 90 to 177)                                         -/
/- ----------------------------------------------------------------- -/

/-- Modelled from the spec: the sync::Status state machine (module sync is
not in src/).  States Stopped, Starting, Running, Stopping as listed in the
lifecycle section of the spec. -/
inductive Status where
  | Stopped
  | Starting
  | Running
  | Stopping
deriving DecidableEq, Repr

/-- Dynamic state of one client::Handle: the enabled flag (AtomicBool),
the node status, and counters of the node start and stop invocations
issued so far (used to express that start and stop are not re-invoked). -/
structure HandleState where
  enabled : Bool
  status : Status
  node_start_calls : Nat
  node_stop_calls : Nat
deriving DecidableEq, Repr

/-- Modelled from the spec: StatusMonitor::initiate_starting (module sync is
not in src/).  A start transition is allowed exactly when the client is
Stopped; it moves the status to Starting. -/
def initiate_starting (s : HandleState) : Bool × HandleState :=
  if s.status = Status.Stopped then (true, { s with status := Status.Starting })
  else (false, s)

/-- Modelled from the spec: StatusMonitor::initiate_stopping (module sync is
not in src/).  A stop transition is allowed when the client is Starting or
Running; it moves the status to Stopping. -/
def initiate_stopping (s : HandleState) : Bool × HandleState :=
  if s.status = Status.Starting ∨ s.status = Status.Running then
    (true, { s with status := Status.Stopping })
  else (false, s)

/-- Handle::start (client.rs lines 90 to 96): invoke node start only when
initiate_starting allows it. -/
def handle_start (s : HandleState) : HandleState :=
  let p := initiate_starting s
  if p.1 then { p.2 with node_start_calls := p.2.node_start_calls + 1 } else p.2

/-- Handle::stop (client.rs lines 98 to 104): invoke node stop only when
initiate_stopping allows it. -/
def handle_stop (s : HandleState) : HandleState :=
  let p := initiate_stopping s
  if p.1 then { p.2 with node_stop_calls := p.2.node_stop_calls + 1 } else p.2

/-- Handle::try_enable (client.rs lines 113 to 123): swap the enabled flag
to true; when it was previously false, start the client and return Ok,
otherwise return Err. -/
def try_enable (s : HandleState) : Except Unit Unit × HandleState :=
  let was_enabled := s.enabled
  let s1 := { s with enabled := true }
  if !was_enabled then (Except.ok (), handle_start s1) else (Except.error (), s1)

/-- Handle::try_disable (client.rs lines 126 to 136): swap the enabled flag
to false; when it was previously true, stop the client and return Ok,
otherwise return Err. -/
def try_disable (s : HandleState) : Except Unit Unit × HandleState :=
  let was_enabled := s.enabled
  let s1 := { s with enabled := false }
  if was_enabled then (Except.ok (), handle_stop s1) else (Except.error (), s1)

/-- Drop for Handle (client.rs lines 173 to 177): calls the node stop
operation directly, without consulting the enabled flag or the status
gate. -/
def handle_drop (s : HandleState) : HandleState :=
  { s with node_stop_calls := s.node_stop_calls + 1 }

/-- From Descriptor for Handle (client.rs lines 149 to 171): a fresh handle
has enabled set to false; the freshly constructed node has not been
started, so its status is Stopped and no start or stop call has been
issued yet. -/
def handle_from_descriptor : HandleState :=
  { enabled := false
    status := Status.Stopped
    node_start_calls := 0
    node_stop_calls := 0 }

/-- Group::add_client (client.rs lines 215 to 236) restricted to the part
acting on the new handle state: an unconditional try_disable whose result
is discarded, then, when the descriptor requests an enabled client, a
try_enable whose Err outcome is the expect panic, modelled as none. -/
def add_client (s : HandleState) (descriptor_enable : Bool) : Option HandleState :=
  let s1 := (try_disable s).2
  if descriptor_enable then
    match try_enable s1 with
    | (Except.ok _, s2) => some s2
    | (Except.error _, _) => none
  else
    some s1

/- ----------------------------------------------------------------- -/
/- Small facts about the handle state machine                          -/
/- ----------------------------------------------------------------- -/

theorem initiate_stopping_enabled (s : HandleState) :
    (initiate_stopping s).2.enabled = s.enabled := by
  unfold initiate_stopping
  split <;> rfl

theorem handle_stop_enabled (s : HandleState) :
    (handle_stop s).enabled = s.enabled := by
  have h := initiate_stopping_enabled s
  simp only [handle_stop]
  by_cases h1 : (initiate_stopping s).1 <;> simp [h1, h]

theorem try_disable_enabled (s : HandleState) :
    ((try_disable s).2).enabled = false := by
  unfold try_disable
  by_cases h : s.enabled <;> simp [h, handle_stop_enabled]

/- ----------------------------------------------------------------- -/
/- Claim theorems C6, C7, C8, C9                                       -/
/- ----------------------------------------------------------------- -/

/-- Claim C6: a freshly constructed handle is disabled; the first
try_enable succeeds and invokes node start exactly once (hence at most
once), and a second try_enable with no intervening try_disable returns an
error, leaves the state (in particular the enabled flag) unchanged, and
does not invoke start again. -/
theorem try_enable_twice_spec :
    handle_from_descriptor.enabled = false ∧
    try_enable handle_from_descriptor =
      (Except.ok (), { enabled := true
                       status := Status.Starting
                       node_start_calls := 1
                       node_stop_calls := 0 }) ∧
    try_enable { enabled := true
                 status := Status.Starting
                 node_start_calls := 1
                 node_stop_calls := 0 } =
      (Except.error (), { enabled := true
                          status := Status.Starting
                          node_start_calls := 1
                          node_stop_calls := 0 }) :=
  ⟨rfl, rfl, rfl⟩

/-- Claim C7: two client handles compare equal exactly when they wrap the
same node instance (same unique pointer), whatever the other fields hold;
and matching_solution holds exactly when the solution's originating node
is the same instance as the handle's node. -/
theorem handle_eq_and_matching_solution_iff (a b : ClientHandle) (s : Solution) :
    (client_handle_eq a b = true ↔ a.node.unique_ptr = b.node.unique_ptr) ∧
    (matching_solution a s = true ↔ a.node.unique_ptr = s.origin.unique_ptr) := by
  constructor <;> simp [client_handle_eq, matching_solution]

/-- Claim C8: dropping a handle always issues one more node stop call,
whatever the enabled flag or status at destruction time. -/
theorem handle_drop_stops (s : HandleState) :
    (handle_drop s).node_stop_calls = s.node_stop_calls + 1 ∧
    (handle_drop s).enabled = s.enabled :=
  ⟨rfl, rfl⟩

/-- Claim C9: in Group::add_client the expect on try_enable can never
panic: the preceding unconditional try_disable leaves the enabled flag
false, so the guarded try_enable always returns Ok; add_client therefore
returns some state for every input state and descriptor flag. -/
theorem add_client_never_panics (s : HandleState) (descriptor_enable : Bool) :
    (add_client s descriptor_enable).isSome = true := by
  unfold add_client
  cases descriptor_enable
  · simp
  · simp only [if_true]
    have h := try_disable_enabled s
    unfold try_enable
    simp [h]

/- ----------------------------------------------------------------- -/
/- The scheduler registry (client.rs lines 283 to 391)                 -/
/- ----------------------------------------------------------------- -/

/-- Variants of error::Client used by client.rs (module error is not in
src/; the two variants below are the ones client.rs constructs). -/
inductive ClientError where
  | Missing
  | Additional
deriving DecidableEq, Repr

/-- scheduler::Handle: one client handle wrapped with its target
percentage share (an f64 in the source, represented as a rational) and
its generated-work counter. -/
structure SchedulerHandle where
  client_handle : ClientHandle
  percentage_share : ℚ
  generated_work : Nat
deriving DecidableEq, Repr

/-- Modelled from the spec: scheduler::Handle::new (module scheduler is not
in src/).  The wrapper starts with an empty generated-work counter; the
concrete initial share is irrelevant because every registration is
followed by a quota recalculation that overwrites it. -/
def SchedulerHandle.new (c : ClientHandle) : SchedulerHandle :=
  { client_handle := c, percentage_share := 0, generated_work := 0 }

/-- Modelled from the spec: scheduler::Handle::reset_generated_work
(module scheduler is not in src/) zeroes the generated-work counter. -/
def SchedulerHandle.reset_generated_work (h : SchedulerHandle) : SchedulerHandle :=
  { h with generated_work := 0 }

/-- Registry (client.rs lines 283 to 286): the authoritative ordered list
of scheduler handles. -/
structure Registry where
  list : List SchedulerHandle
deriving DecidableEq, Repr

/-- Registry::new (client.rs lines 289 to 291). -/
def Registry.new : Registry := { list := [] }

/-- Registry::count (client.rs lines 293 to 296). -/
def Registry.count (r : Registry) : Nat := r.list.length

/-- Registry::get_scheduler_handle (client.rs lines 320 to 329): first
handle whose wrapped client compares equal (by node identity) to the
given one, or a Missing error. -/
def get_scheduler_handle (r : Registry) (c : ClientHandle) :
    Except ClientError SchedulerHandle :=
  match r.list.find? (fun h => client_handle_eq h.client_handle c) with
  | some h => Except.ok h
  | none => Except.error ClientError.Missing

/-- Registry::recalculate_quotas (client.rs lines 331 to 348): when the
list is non-empty, give every handle the share 1 / count, first resetting
its generated-work counter when reset_generated_work is requested; when
the list is empty, return without touching anything. -/
def recalculate_quotas (r : Registry) (reset_generated_work : Bool) : Registry :=
  if r.count > 0 then
    let percentage_share : ℚ := 1 / (r.count : ℚ)
    { list := r.list.map (fun h =>
        let h1 := if reset_generated_work then h.reset_generated_work else h
        { h1 with percentage_share := percentage_share }) }
  else r

/-- Registry::register_client (client.rs lines 350 to 356): push a new
scheduler handle, then recalculate quotas with a counter reset.  The Rust
function also returns a reference to the pushed handle, which the claims
do not use. -/
def register_client (r : Registry) (c : ClientHandle) : Registry :=
  recalculate_quotas { list := r.list ++ [SchedulerHandle.new c] } true

/-- Fused form of the position-then-remove pair used by
Registry::unregister_client: the first handle matching the client by
identity together with the list with that occurrence removed, or none
when no handle matches. -/
def remove_first (l : List SchedulerHandle) (c : ClientHandle) :
    Option (SchedulerHandle × List SchedulerHandle) :=
  match l with
  | [] => none
  | h :: t =>
    if client_handle_eq h.client_handle c then some (h, t)
    else
      match remove_first t c with
      | some (sh, t1) => some (sh, h :: t1)
      | none => none

/-- Registry::unregister_client (client.rs lines 358 to 374): remove the
first handle matching by identity and recalculate quotas without a
counter reset, or fail with Missing leaving the registry as it was. -/
def unregister_client (r : Registry) (c : ClientHandle) :
    Except ClientError (SchedulerHandle × Registry) :=
  match remove_first r.list c with
  | some (sh, l1) => Except.ok (sh, recalculate_quotas { list := l1 } false)
  | none => Except.error ClientError.Missing

/-- Loop body of Registry::reorder_clients (client.rs lines 380 to 383):
look every requested client up in the current list, stopping at the first
Missing lookup. -/
def collect_scheduler_handles (r : Registry) :
    List ClientHandle → Except ClientError (List SchedulerHandle)
  | [] => Except.ok []
  | c :: cs =>
    match get_scheduler_handle r c with
    | Except.error e => Except.error e
    | Except.ok h =>
      match collect_scheduler_handles r cs with
      | Except.error e => Except.error e
      | Except.ok hs => Except.ok (h :: hs)

/-- Registry::reorder_clients (client.rs lines 376 to 390): build the
reordered handle list by lookup, fail with Additional when fewer handles
were requested than are registered, otherwise replace the list.  An error
return models the Rust paths that leave self.list untouched. -/
def reorder_clients (r : Registry) (cs : List ClientHandle) :
    Except ClientError Registry :=
  match collect_scheduler_handles r cs with
  | Except.error e => Except.error e
  | Except.ok handles =>
    if r.list.length ≠ handles.length then Except.error ClientError.Additional
    else Except.ok { list := handles }

/- ----------------------------------------------------------------- -/
/- Facts about recalculate_quotas                                      -/
/- ----------------------------------------------------------------- -/

theorem recalc_length (r : Registry) (b : Bool) :
    (recalculate_quotas r b).list.length = r.list.length := by
  unfold recalculate_quotas
  split <;> simp [Registry.count]

theorem recalc_map_client_handle (r : Registry) (b : Bool) :
    (recalculate_quotas r b).list.map (fun h => h.client_handle) =
      r.list.map (fun h => h.client_handle) := by
  unfold recalculate_quotas
  split
  · simp only [List.map_map]
    apply List.map_congr_left
    intro h _
    cases b <;> rfl
  · rfl

theorem recalc_map_generated_work_false (r : Registry) :
    (recalculate_quotas r false).list.map (fun h => h.generated_work) =
      r.list.map (fun h => h.generated_work) := by
  unfold recalculate_quotas
  split
  · simp only [List.map_map]
    apply List.map_congr_left
    intro h _
    rfl
  · rfl

theorem recalc_share (r : Registry) (b : Bool) :
    ∀ h ∈ (recalculate_quotas r b).list,
      h.percentage_share = 1 / (r.count : ℚ) := by
  unfold recalculate_quotas
  split
  · intro h hmem
    simp only [List.mem_map] at hmem
    obtain ⟨h0, _, rfl⟩ := hmem
    rfl
  · intro h hmem
    rename_i hcount
    have : r.count = 0 := by omega
    have : r.list = [] := by
      simpa [Registry.count, List.length_eq_zero] using this
    rw [this] at hmem
    cases hmem

theorem recalc_work_reset (r : Registry) :
    ∀ h ∈ (recalculate_quotas r true).list, h.generated_work = 0 := by
  unfold recalculate_quotas
  split
  · intro h hmem
    simp only [List.mem_map] at hmem
    obtain ⟨h0, _, rfl⟩ := hmem
    rfl
  · intro h hmem
    rename_i hcount
    have : r.count = 0 := by omega
    have : r.list = [] := by
      simpa [Registry.count, List.length_eq_zero] using this
    rw [this] at hmem
    cases hmem

/- ----------------------------------------------------------------- -/
/- Claim theorem C2                                                    -/
/- ----------------------------------------------------------------- -/

/-- Claim C2: after register_client appends a new client, the count has
grown by one, and every handle in the registry, the new one included,
carries the share 1 / new count and a generated-work counter reset to
zero. -/
theorem register_client_quotas (r : Registry) (c : ClientHandle) :
    (register_client r c).count = r.count + 1 ∧
    ∀ h ∈ (register_client r c).list,
      h.percentage_share = 1 / ((r.count + 1 : Nat) : ℚ) ∧
      h.generated_work = 0 := by
  constructor
  · unfold register_client
    simp [Registry.count, recalc_length]
  · intro h hmem
    unfold register_client at hmem
    refine ⟨?_, recalc_work_reset _ h hmem⟩
    have hs := recalc_share _ true h hmem
    simpa [Registry.count] using hs

/-- Witness for C2 at a concrete input: registering a first client into
the empty registry yields count one, and the single resulting handle
(the head of the list) has share 1 / 1 and counter zero. -/
theorem register_client_quotas_witness :
    (register_client Registry.new { node := { unique_ptr := 0, payload := 0 }, descriptor := 0 }).count =
      Registry.new.count + 1 ∧
    ((register_client Registry.new { node := { unique_ptr := 0, payload := 0 }, descriptor := 0 }).list.getD 0
        (SchedulerHandle.new { node := { unique_ptr := 0, payload := 0 }, descriptor := 0 })).percentage_share =
      1 / ((Registry.new.count + 1 : Nat) : ℚ) ∧
    ((register_client Registry.new { node := { unique_ptr := 0, payload := 0 }, descriptor := 0 }).list.getD 0
        (SchedulerHandle.new { node := { unique_ptr := 0, payload := 0 }, descriptor := 0 })).generated_work = 0 := by
  have hmem :
      ((register_client Registry.new { node := { unique_ptr := 0, payload := 0 }, descriptor := 0 }).list.getD 0
        (SchedulerHandle.new { node := { unique_ptr := 0, payload := 0 }, descriptor := 0 })) ∈
      (register_client Registry.new { node := { unique_ptr := 0, payload := 0 }, descriptor := 0 }).list := by
    simp [register_client, recalculate_quotas, Registry.new, Registry.count, SchedulerHandle.new]
  have h2 := (register_client_quotas Registry.new
      { node := { unique_ptr := 0, payload := 0 }, descriptor := 0 }).2 _ hmem
  exact ⟨(register_client_quotas Registry.new
      { node := { unique_ptr := 0, payload := 0 }, descriptor := 0 }).1, h2.1, h2.2⟩

/- ----------------------------------------------------------------- -/
/- Facts about remove_first                                            -/
/- ----------------------------------------------------------------- -/

theorem remove_first_none (l : List SchedulerHandle) (c : ClientHandle)
    (hall : ∀ h ∈ l, client_handle_eq h.client_handle c = false) :
    remove_first l c = none := by
  induction l with
  | nil => rfl
  | cons h t ih =>
    simp only [remove_first, hall h (List.mem_cons_self h t), Bool.false_eq_true, if_false]
    rw [ih (fun x hx => hall x (List.mem_cons_of_mem h hx))]

theorem remove_first_append (l₁ : List SchedulerHandle) (sh : SchedulerHandle)
    (l₂ : List SchedulerHandle) (c : ClientHandle)
    (hall : ∀ h ∈ l₁, client_handle_eq h.client_handle c = false)
    (hsh : client_handle_eq sh.client_handle c = true) :
    remove_first (l₁ ++ sh :: l₂) c = some (sh, l₁ ++ l₂) := by
  induction l₁ with
  | nil =>
    simp [remove_first, hsh]
  | cons h t ih =>
    simp only [List.cons_append, remove_first, hall h (List.mem_cons_self h t),
      Bool.false_eq_true, if_false, List.append_eq]
    rw [ih (fun x hx => hall x (List.mem_cons_of_mem h hx))]

/- ----------------------------------------------------------------- -/
/- Claim theorem C3                                                    -/
/- ----------------------------------------------------------------- -/

/-- Claim C3: when some registered handle matches the client by node
identity, unregister_client removes exactly the first such handle and
returns it; the survivors keep their order and identities, keep their
generated-work counters untouched, and each gets the share 1 divided by
the remaining count.  When no handle matches, unregister_client fails
with Missing (and, the embedding being state passing, the registry is
left as it was). -/
theorem unregister_client_spec (r : Registry) (c : ClientHandle) :
    ((∀ h ∈ r.list, client_handle_eq h.client_handle c = false) →
      unregister_client r c = Except.error ClientError.Missing) ∧
    (∀ l₁ sh l₂, r.list = l₁ ++ sh :: l₂ →
      (∀ h ∈ l₁, client_handle_eq h.client_handle c = false) →
      client_handle_eq sh.client_handle c = true →
      unregister_client r c =
        Except.ok (sh, recalculate_quotas { list := l₁ ++ l₂ } false) ∧
      (recalculate_quotas { list := l₁ ++ l₂ } false).list.map (fun h => h.client_handle) =
        (l₁ ++ l₂).map (fun h => h.client_handle) ∧
      (recalculate_quotas { list := l₁ ++ l₂ } false).list.map (fun h => h.generated_work) =
        (l₁ ++ l₂).map (fun h => h.generated_work) ∧
      ∀ h ∈ (recalculate_quotas { list := l₁ ++ l₂ } false).list,
        h.percentage_share = 1 / ((l₁ ++ l₂).length : ℚ)) := by
  constructor
  · intro hall
    unfold unregister_client
    rw [remove_first_none r.list c hall]
  · intro l₁ sh l₂ hdecomp hall hsh
    have hr : remove_first r.list c = some (sh, l₁ ++ l₂) := by
      rw [hdecomp]
      exact remove_first_append l₁ sh l₂ c hall hsh
    refine ⟨?_, recalc_map_client_handle _ false, recalc_map_generated_work_false _, ?_⟩
    · unfold unregister_client
      rw [hr]
    · intro h hmem
      have hs := recalc_share { list := l₁ ++ l₂ } false h hmem
      simpa [Registry.count] using hs

/-- Witness for C3 at a concrete input: removing the first of two
registered clients returns that handle, and the surviving handle keeps
its generated-work counter (7). -/
theorem unregister_client_witness :
    unregister_client
        { list := [{ client_handle := { node := { unique_ptr := 0, payload := 0 }, descriptor := 0 },
                     percentage_share := 1, generated_work := 5 },
                   { client_handle := { node := { unique_ptr := 1, payload := 0 }, descriptor := 0 },
                     percentage_share := 1, generated_work := 7 }] }
        { node := { unique_ptr := 0, payload := 0 }, descriptor := 0 } =
      Except.ok
        ({ client_handle := { node := { unique_ptr := 0, payload := 0 }, descriptor := 0 },
           percentage_share := 1, generated_work := 5 },
         recalculate_quotas
           { list := [{ client_handle := { node := { unique_ptr := 1, payload := 0 }, descriptor := 0 },
                        percentage_share := 1, generated_work := 7 }] } false) ∧
    (recalculate_quotas
        { list := [{ client_handle := { node := { unique_ptr := 1, payload := 0 }, descriptor := 0 },
                     percentage_share := 1, generated_work := 7 }] } false).list.map
      (fun h => h.generated_work) = [7] ∧
    unregister_client
        { list := [{ client_handle := { node := { unique_ptr := 0, payload := 0 }, descriptor := 0 },
                     percentage_share := 1, generated_work := 5 },
                   { client_handle := { node := { unique_ptr := 1, payload := 0 }, descriptor := 0 },
                     percentage_share := 1, generated_work := 7 }] }
        { node := { unique_ptr := 9, payload := 0 }, descriptor := 0 } =
      Except.error ClientError.Missing := by
  have habsent := (unregister_client_spec
      { list := [{ client_handle := { node := { unique_ptr := 0, payload := 0 }, descriptor := 0 },
                   percentage_share := 1, generated_work := 5 },
                 { client_handle := { node := { unique_ptr := 1, payload := 0 }, descriptor := 0 },
                   percentage_share := 1, generated_work := 7 }] }
      { node := { unique_ptr := 9, payload := 0 }, descriptor := 0 }).1 (by decide)
  have h := (unregister_client_spec
      { list := [{ client_handle := { node := { unique_ptr := 0, payload := 0 }, descriptor := 0 },
                   percentage_share := 1, generated_work := 5 },
                 { client_handle := { node := { unique_ptr := 1, payload := 0 }, descriptor := 0 },
                   percentage_share := 1, generated_work := 7 }] }
      { node := { unique_ptr := 0, payload := 0 }, descriptor := 0 }).2
    []
    { client_handle := { node := { unique_ptr := 0, payload := 0 }, descriptor := 0 },
      percentage_share := 1, generated_work := 5 }
    [{ client_handle := { node := { unique_ptr := 1, payload := 0 }, descriptor := 0 },
       percentage_share := 1, generated_work := 7 }]
    rfl (by simp) rfl
  refine ⟨h.1, ?_, habsent⟩
  have h3 := h.2.2.1
  simpa using h3

/- ----------------------------------------------------------------- -/
/- Operation sequences over the registry (claim C4)                    -/
/- ----------------------------------------------------------------- -/

/-- One structural edit of the registry membership. -/
inductive SchedulerOp where
  | registerOp (c : ClientHandle)
  | unregisterOp (c : ClientHandle)

/-- Effect of one edit: register always succeeds; a failed unregister
returns Err from a method on a mutable reference, leaving the registry
unchanged. -/
def apply_op (r : Registry) : SchedulerOp → Registry
  | SchedulerOp.registerOp c => register_client r c
  | SchedulerOp.unregisterOp c =>
    match unregister_client r c with
    | Except.ok p => p.2
    | Except.error _ => r

/-- Effect of a sequence of edits, first element first. -/
def apply_ops (r : Registry) (ops : List SchedulerOp) : Registry :=
  ops.foldl apply_op r

/-- Every handle holds the equal-split share for the current count. -/
def uniform_shares (r : Registry) : Prop :=
  ∀ h ∈ r.list, h.percentage_share = 1 / (r.list.length : ℚ)

theorem uniform_recalc (r : Registry) (b : Bool) :
    uniform_shares (recalculate_quotas r b) := by
  intro h hmem
  have hs := recalc_share r b h hmem
  rw [recalc_length]
  exact hs

theorem uniform_apply_op (r : Registry) (op : SchedulerOp)
    (hu : uniform_shares r) : uniform_shares (apply_op r op) := by
  cases op with
  | registerOp c => exact uniform_recalc _ true
  | unregisterOp c =>
    simp only [apply_op]
    unfold unregister_client
    cases hr : remove_first r.list c with
    | none => simp only [hr]; exact hu
    | some q =>
      obtain ⟨sh, l1⟩ := q
      simp only [hr]
      exact uniform_recalc _ false

theorem uniform_apply_ops (ops : List SchedulerOp) :
    ∀ r : Registry, uniform_shares r → uniform_shares (apply_ops r ops) := by
  induction ops with
  | nil => intro r h; exact h
  | cons op t ih => intro r h; exact ih _ (uniform_apply_op r op h)

theorem sum_shares_const (l : List SchedulerHandle) (q : ℚ)
    (hall : ∀ h ∈ l, h.percentage_share = q) :
    (l.map (fun h => h.percentage_share)).sum = l.length * q := by
  induction l with
  | nil => simp
  | cons a t ih =>
    simp only [List.map_cons, List.sum_cons, List.length_cons]
    rw [hall a (List.mem_cons_self a t),
      ih (fun x hx => hall x (List.mem_cons_of_mem a hx))]
    push_cast
    ring

/- ----------------------------------------------------------------- -/
/- Claim theorem C4                                                    -/
/- ----------------------------------------------------------------- -/

/-- Claim C4: starting from the empty registry, after any sequence of
register and unregister edits that leaves the handle list non-empty, the
target shares of the registered handles sum to exactly 1 (the source's
f64 arithmetic is represented exactly by rationals, so the tolerance is
met exactly). -/
theorem quota_conservation (ops : List SchedulerOp)
    (hne : (apply_ops Registry.new ops).list ≠ []) :
    ((apply_ops Registry.new ops).list.map (fun h => h.percentage_share)).sum = 1 := by
  have hu : uniform_shares (apply_ops Registry.new ops) :=
    uniform_apply_ops ops Registry.new (by intro h hm; cases hm)
  have hlen : ((apply_ops Registry.new ops).list.length : ℚ) ≠ 0 := by
    have : (apply_ops Registry.new ops).list.length ≠ 0 :=
      fun h0 => hne (List.length_eq_zero.mp h0)
    exact_mod_cast this
  rw [sum_shares_const _ _ hu]
  field_simp

/-- Witness for C4 at a concrete input: after registering two clients the
shares sum to 1. -/
theorem quota_conservation_witness :
    (apply_ops Registry.new
        [SchedulerOp.registerOp { node := { unique_ptr := 0, payload := 0 }, descriptor := 0 },
         SchedulerOp.registerOp { node := { unique_ptr := 1, payload := 0 }, descriptor := 0 }]).list ≠ [] ∧
    ((apply_ops Registry.new
        [SchedulerOp.registerOp { node := { unique_ptr := 0, payload := 0 }, descriptor := 0 },
         SchedulerOp.registerOp { node := { unique_ptr := 1, payload := 0 }, descriptor := 0 }]).list.map
      (fun h => h.percentage_share)).sum = 1 := by
  have hlen : (apply_ops Registry.new
      [SchedulerOp.registerOp { node := { unique_ptr := 0, payload := 0 }, descriptor := 0 },
       SchedulerOp.registerOp { node := { unique_ptr := 1, payload := 0 }, descriptor := 0 }]).list.length = 2 := by
    show (register_client (register_client Registry.new
      { node := { unique_ptr := 0, payload := 0 }, descriptor := 0 })
      { node := { unique_ptr := 1, payload := 0 }, descriptor := 0 }).list.length = 2
    simp [register_client, recalc_length, Registry.new]
  have hne : (apply_ops Registry.new
      [SchedulerOp.registerOp { node := { unique_ptr := 0, payload := 0 }, descriptor := 0 },
       SchedulerOp.registerOp { node := { unique_ptr := 1, payload := 0 }, descriptor := 0 }]).list ≠ [] := by
    intro hnil
    rw [hnil] at hlen
    cases hlen
  exact ⟨hne, quota_conservation _ hne⟩

/- ----------------------------------------------------------------- -/
/- Facts about reorder lookup (claim C1)                               -/
/- ----------------------------------------------------------------- -/

theorem get_scheduler_handle_ok (r : Registry) (c : ClientHandle) (h : SchedulerHandle)
    (hf : r.list.find? (fun x => client_handle_eq x.client_handle c) = some h) :
    get_scheduler_handle r c = Except.ok h := by
  unfold get_scheduler_handle
  rw [hf]

theorem get_scheduler_handle_err (r : Registry) (c : ClientHandle)
    (hf : r.list.find? (fun x => client_handle_eq x.client_handle c) = none) :
    get_scheduler_handle r c = Except.error ClientError.Missing := by
  unfold get_scheduler_handle
  rw [hf]

theorem collect_ok_forall2 (r : Registry) :
    ∀ (cs : List ClientHandle) (hs : List SchedulerHandle),
      collect_scheduler_handles r cs = Except.ok hs →
      List.Forall₂ (fun c h =>
        r.list.find? (fun x => client_handle_eq x.client_handle c) = some h) cs hs := by
  intro cs
  induction cs with
  | nil =>
    intro hs hok
    simp only [collect_scheduler_handles] at hok
    obtain rfl : ([] : List SchedulerHandle) = hs := by simpa using hok
    exact List.Forall₂.nil
  | cons c0 cs ih =>
    intro hs hok
    simp only [collect_scheduler_handles, get_scheduler_handle] at hok
    cases hf : r.list.find? (fun x => client_handle_eq x.client_handle c0) with
    | none => rw [hf] at hok; simp at hok
    | some h0 =>
      rw [hf] at hok
      cases hc : collect_scheduler_handles r cs with
      | error e => rw [hc] at hok; simp at hok
      | ok hs0 =>
        rw [hc] at hok
        obtain rfl : h0 :: hs0 = hs := by simpa using hok
        exact List.Forall₂.cons hf (ih hs0 hc)

theorem collect_error_exists (r : Registry) :
    ∀ (cs : List ClientHandle) (e : ClientError),
      collect_scheduler_handles r cs = Except.error e →
      ∃ c ∈ cs, r.list.find? (fun x => client_handle_eq x.client_handle c) = none := by
  intro cs
  induction cs with
  | nil => intro e he; simp [collect_scheduler_handles] at he
  | cons c0 cs ih =>
    intro e he
    simp only [collect_scheduler_handles, get_scheduler_handle] at he
    cases hf : r.list.find? (fun x => client_handle_eq x.client_handle c0) with
    | none => exact ⟨c0, List.mem_cons_self c0 cs, hf⟩
    | some h0 =>
      rw [hf] at he
      cases hc : collect_scheduler_handles r cs with
      | error e1 =>
        obtain ⟨c, hcm, hcn⟩ := ih e1 hc
        exact ⟨c, List.mem_cons_of_mem c0 hcm, hcn⟩
      | ok hs0 => rw [hc] at he; simp at he

theorem collect_error_of_missing (r : Registry) :
    ∀ (cs : List ClientHandle),
      (∃ c ∈ cs, r.list.find? (fun x => client_handle_eq x.client_handle c) = none) →
      ∃ e, collect_scheduler_handles r cs = Except.error e := by
  intro cs
  induction cs with
  | nil => rintro ⟨c, hc, _⟩; cases hc
  | cons c0 cs ih =>
    rintro ⟨c, hc, hnone⟩
    rcases List.mem_cons.mp hc with rfl | htail
    · exact ⟨ClientError.Missing,
        by simp only [collect_scheduler_handles, get_scheduler_handle_err r c hnone]⟩
    · cases hg : get_scheduler_handle r c0 with
      | error e => exact ⟨e, by simp only [collect_scheduler_handles, hg]⟩
      | ok h0 =>
        obtain ⟨e, he⟩ := ih ⟨c, htail, hnone⟩
        exact ⟨e, by simp only [collect_scheduler_handles, hg, he]⟩

theorem collect_ok_of_all_found (r : Registry) :
    ∀ (cs : List ClientHandle),
      (∀ c ∈ cs, r.list.find? (fun x => client_handle_eq x.client_handle c) ≠ none) →
      ∃ hs, collect_scheduler_handles r cs = Except.ok hs := by
  intro cs
  induction cs with
  | nil => intro _; exact ⟨[], rfl⟩
  | cons c0 cs ih =>
    intro hall
    cases hf : r.list.find? (fun x => client_handle_eq x.client_handle c0) with
    | none => exact absurd hf (hall c0 (List.mem_cons_self c0 cs))
    | some h0 =>
      obtain ⟨hs, hc⟩ := ih (fun c hcm => hall c (List.mem_cons_of_mem c0 hcm))
      exact ⟨h0 :: hs,
        by simp only [collect_scheduler_handles, get_scheduler_handle_ok r c0 h0 hf, hc]⟩

theorem find_self_of_nodup :
    ∀ (l : List SchedulerHandle),
      (l.map (fun h => h.client_handle.node.unique_ptr)).Nodup →
      ∀ h0 ∈ l,
        l.find? (fun x =>
          x.client_handle.node.unique_ptr == h0.client_handle.node.unique_ptr) = some h0 := by
  intro l
  induction l with
  | nil => intro _ h0 h; cases h
  | cons a t ih =>
    intro hnd h0 hmem
    rw [List.map_cons, List.nodup_cons] at hnd
    rcases List.mem_cons.mp hmem with rfl | ht
    · exact List.find?_cons_of_pos t (by simp)
    · have hne : a.client_handle.node.unique_ptr ≠ h0.client_handle.node.unique_ptr := by
        intro heq
        exact hnd.1 (heq ▸
          List.mem_map_of_mem (fun h => h.client_handle.node.unique_ptr) ht)
      rw [List.find?_cons_of_neg t (by simpa using hne)]
      exact ih hnd.2 h0 ht

theorem forall2_map_ident (r : Registry) (cs : List ClientHandle)
    (hs : List SchedulerHandle)
    (hf : List.Forall₂ (fun c h =>
      r.list.find? (fun x => client_handle_eq x.client_handle c) = some h) cs hs) :
    hs.map (fun h => h.client_handle.node.unique_ptr) =
      cs.map (fun c => c.node.unique_ptr) := by
  induction hf with
  | nil => rfl
  | cons hR htail ih =>
    have hhead := List.find?_some hR
    simp only [client_handle_eq, beq_iff_eq] at hhead
    simp [hhead, ih]

theorem forall2_map_some (r : Registry) (cs : List ClientHandle)
    (hs : List SchedulerHandle)
    (hf : List.Forall₂ (fun c h =>
      r.list.find? (fun x => client_handle_eq x.client_handle c) = some h) cs hs) :
    cs.map (fun c => r.list.find? (fun x => client_handle_eq x.client_handle c)) =
      hs.map some := by
  induction hf with
  | nil => rfl
  | cons hR htail ih => simp [hR, ih]

theorem perm_of_map_some {α : Type} {l1 l2 : List α}
    (hp : (l1.map some).Perm (l2.map some)) : l1.Perm l2 := by
  rw [← Multiset.coe_eq_coe] at hp ⊢
  rw [← Multiset.map_coe, ← Multiset.map_coe] at hp
  exact Multiset.map_injective (Option.some_injective α) hp

/- ----------------------------------------------------------------- -/
/- Claim C1 (corrected): reorder error and success characterization    -/
/- ----------------------------------------------------------------- -/

/-- Counterexample to claim C1 as stated: against a registry holding the
two node identities 0 and 1, the request list that duplicates identity 0
has a multiset of identities different from the current membership, yet
reorder_clients succeeds, replacing the list with the handle of identity
0 twice (the source only checks that every requested identity resolves
and that the lengths agree, so a duplicated current member slips
through). -/
theorem reorder_clients_counterexample :
    Multiset.ofList ([{ node := { unique_ptr := 0, payload := 0 }, descriptor := 0 },
        { node := { unique_ptr := 0, payload := 0 }, descriptor := 0 }].map
          (fun c : ClientHandle => c.node.unique_ptr)) ≠
      Multiset.ofList
        (({ list := [{ client_handle := { node := { unique_ptr := 0, payload := 0 }, descriptor := 0 },
                       percentage_share := 1, generated_work := 0 },
                     { client_handle := { node := { unique_ptr := 1, payload := 0 }, descriptor := 0 },
                       percentage_share := 1, generated_work := 0 }] } : Registry).list.map
          (fun h => h.client_handle.node.unique_ptr)) ∧
    reorder_clients
        { list := [{ client_handle := { node := { unique_ptr := 0, payload := 0 }, descriptor := 0 },
                     percentage_share := 1, generated_work := 0 },
                   { client_handle := { node := { unique_ptr := 1, payload := 0 }, descriptor := 0 },
                     percentage_share := 1, generated_work := 0 }] }
        [{ node := { unique_ptr := 0, payload := 0 }, descriptor := 0 },
         { node := { unique_ptr := 0, payload := 0 }, descriptor := 0 }] =
      Except.ok
        { list := [{ client_handle := { node := { unique_ptr := 0, payload := 0 }, descriptor := 0 },
                     percentage_share := 1, generated_work := 0 },
                   { client_handle := { node := { unique_ptr := 0, payload := 0 }, descriptor := 0 },
                     percentage_share := 1, generated_work := 0 }] } :=
  ⟨by decide, rfl⟩

/-- Claim C1 as amended: reorder_clients errors exactly when some
requested client fails to resolve by identity against the current list
(Missing) or when the number of requests differs from the current count
(Additional); a request list that duplicates a current member while
matching the length is accepted, so a multiset mismatch alone does not
force an error.  On any error the state-passing embedding leaves the
registry unchanged.  When the current identities are pairwise distinct
and the requested identities are a permutation of them, reorder_clients
succeeds, the new list is a permutation of the old one (same count, same
members), and its identities stand in exactly the requested order. -/
theorem reorder_clients_spec (r : Registry) (cs : List ClientHandle) :
    ((∃ e, reorder_clients r cs = Except.error e) ↔
      ((∃ c ∈ cs, r.list.find? (fun h => client_handle_eq h.client_handle c) = none) ∨
        cs.length ≠ r.list.length)) ∧
    ((r.list.map (fun h => h.client_handle.node.unique_ptr)).Nodup →
      (cs.map (fun c => c.node.unique_ptr)).Perm
        (r.list.map (fun h => h.client_handle.node.unique_ptr)) →
      ∃ r1, reorder_clients r cs = Except.ok r1 ∧
        r1.list.Perm r.list ∧
        r1.list.map (fun h => h.client_handle.node.unique_ptr) =
          cs.map (fun c => c.node.unique_ptr)) := by
  constructor
  · constructor
    · rintro ⟨e, he⟩
      unfold reorder_clients at he
      cases hc : collect_scheduler_handles r cs with
      | error e2 => exact Or.inl (collect_error_exists r cs e2 hc)
      | ok hs =>
        rw [hc] at he
        replace he : (if r.list.length ≠ hs.length then Except.error ClientError.Additional
            else Except.ok (Registry.mk hs)) = Except.error e := he
        by_cases hlen : r.list.length ≠ hs.length
        · have hlencs : cs.length = hs.length := (collect_ok_forall2 r cs hs hc).length_eq
          omega
        · rw [if_neg hlen] at he
          cases he
    · rintro (⟨c, hcm, hcn⟩ | hlen)
      · obtain ⟨e, he⟩ := collect_error_of_missing r cs ⟨c, hcm, hcn⟩
        exact ⟨e, by unfold reorder_clients; rw [he]⟩
      · cases hc : collect_scheduler_handles r cs with
        | error e => exact ⟨e, by unfold reorder_clients; rw [hc]⟩
        | ok hs =>
          have hlencs : cs.length = hs.length := (collect_ok_forall2 r cs hs hc).length_eq
          refine ⟨ClientError.Additional, ?_⟩
          unfold reorder_clients
          rw [hc]
          show (if r.list.length ≠ hs.length then Except.error ClientError.Additional
            else Except.ok (Registry.mk hs)) = Except.error ClientError.Additional
          rw [if_pos (by omega)]
  · intro hnd hperm
    have hfound : ∀ c ∈ cs,
        r.list.find? (fun x => client_handle_eq x.client_handle c) ≠ none := by
      intro c hcm hnone
      have hcid : c.node.unique_ptr ∈
          r.list.map (fun h => h.client_handle.node.unique_ptr) :=
        hperm.mem_iff.mp (List.mem_map_of_mem (fun c => c.node.unique_ptr) hcm)
      obtain ⟨h0, hh0m, hh0e⟩ := List.mem_map.mp hcid
      have hfalse := List.find?_eq_none.mp hnone h0 hh0m
      simp [client_handle_eq, hh0e] at hfalse
    obtain ⟨hs, hc⟩ := collect_ok_of_all_found r cs hfound
    have hf2 := collect_ok_forall2 r cs hs hc
    have hlencs : cs.length = hs.length := hf2.length_eq
    have hlenr : cs.length = r.list.length := by
      have hpl := hperm.length_eq
      simpa using hpl
    refine ⟨{ list := hs }, ?_, ?_, forall2_map_ident r cs hs hf2⟩
    · unfold reorder_clients
      rw [hc]
      show (if r.list.length ≠ hs.length then Except.error ClientError.Additional
        else Except.ok (Registry.mk hs)) = Except.ok (Registry.mk hs)
      rw [if_neg (by omega)]
    · have hsome := forall2_map_some r cs hs hf2
      have hself : r.list.map (fun h0 => r.list.find? (fun x =>
          x.client_handle.node.unique_ptr == h0.client_handle.node.unique_ptr)) =
          r.list.map some :=
        List.map_congr_left (fun h0 hm => find_self_of_nodup r.list hnd h0 hm)
      have hpm := hperm.map
        (fun i => r.list.find? (fun x => x.client_handle.node.unique_ptr == i))
      rw [List.map_map, List.map_map] at hpm
      have h1 :
          (cs.map (fun c =>
            r.list.find? (fun x => client_handle_eq x.client_handle c))).Perm
          (r.list.map (fun h0 => r.list.find? (fun x =>
            x.client_handle.node.unique_ptr == h0.client_handle.node.unique_ptr))) := hpm
      rw [hsome, hself] at h1
      exact perm_of_map_some h1

/-- Witness for the amended C1 at a concrete input: swapping the two
registered identities 1 and 0 is accepted and produces the reversed
list. -/
theorem reorder_clients_spec_witness :
    (∃ e, reorder_clients
        { list := [{ client_handle := { node := { unique_ptr := 0, payload := 0 }, descriptor := 0 },
                     percentage_share := 1, generated_work := 0 },
                   { client_handle := { node := { unique_ptr := 1, payload := 0 }, descriptor := 0 },
                     percentage_share := 1, generated_work := 0 }] }
        ([] : List ClientHandle) = Except.error e) ∧
    ∃ r1, reorder_clients
        { list := [{ client_handle := { node := { unique_ptr := 0, payload := 0 }, descriptor := 0 },
                     percentage_share := 1, generated_work := 0 },
                   { client_handle := { node := { unique_ptr := 1, payload := 0 }, descriptor := 0 },
                     percentage_share := 1, generated_work := 0 }] }
        [{ node := { unique_ptr := 1, payload := 0 }, descriptor := 0 },
         { node := { unique_ptr := 0, payload := 0 }, descriptor := 0 }] =
      Except.ok r1 ∧
      r1.list.Perm
        ({ list := [{ client_handle := { node := { unique_ptr := 0, payload := 0 }, descriptor := 0 },
                      percentage_share := 1, generated_work := 0 },
                    { client_handle := { node := { unique_ptr := 1, payload := 0 }, descriptor := 0 },
                      percentage_share := 1, generated_work := 0 }] } : Registry).list ∧
      r1.list.map (fun h => h.client_handle.node.unique_ptr) =
        ([{ node := { unique_ptr := 1, payload := 0 }, descriptor := 0 },
          { node := { unique_ptr := 0, payload := 0 }, descriptor := 0 }] : List ClientHandle).map
          (fun c => c.node.unique_ptr) :=
  ⟨(reorder_clients_spec
      { list := [{ client_handle := { node := { unique_ptr := 0, payload := 0 }, descriptor := 0 },
                   percentage_share := 1, generated_work := 0 },
                 { client_handle := { node := { unique_ptr := 1, payload := 0 }, descriptor := 0 },
                   percentage_share := 1, generated_work := 0 }] }
      ([] : List ClientHandle)).1.mpr (Or.inr (by decide)),
   (reorder_clients_spec
      { list := [{ client_handle := { node := { unique_ptr := 0, payload := 0 }, descriptor := 0 },
                   percentage_share := 1, generated_work := 0 },
                 { client_handle := { node := { unique_ptr := 1, payload := 0 }, descriptor := 0 },
                   percentage_share := 1, generated_work := 0 }] }
      [{ node := { unique_ptr := 1, payload := 0 }, descriptor := 0 },
       { node := { unique_ptr := 0, payload := 0 }, descriptor := 0 }]).2
      (by decide) (by decide)⟩

/- ----------------------------------------------------------------- -/
/- The hardware sender loop (work_generation.rs lines 78 to 95)        -/
/- ----------------------------------------------------------------- -/

/-- Modelled from the spec: registry::WorkRegistry (the registry module is
not in src/).  A fixed-capacity slot table indexed by work ID; store_work
assigns the next cyclic slot, overwrites any prior occupant and returns
the assigned ID.  Work items are abstracted to numbers. -/
structure WorkRegistry where
  id_limit : Nat
  next_id : Nat
  slots : List (Option Nat)

/-- Modelled from the spec: WorkRegistry::store_work assigns the current
next_id, stores the work there, advances next_id cyclically and returns
the assigned ID. -/
def WorkRegistry.store_work (reg : WorkRegistry) (w : Nat) : Nat × WorkRegistry :=
  let work_id := reg.next_id
  (work_id,
    { reg with
        next_id := (work_id + 1) % reg.id_limit
        slots := reg.slots.set work_id (some w) })

/-- Observable steps of one sender_task iteration, in the order the await
points and calls occur in the source: the backpressure wait (with its
outcome), the work-channel receive, the registry store yielding the work
ID, and the hardware write of that work and ID. -/
inductive SenderEvent where
  | wait_room_ok
  | wait_room_err
  | recv_work (w : Nat)
  | store_work (w : Nat) (work_id : Nat)
  | send_work (w : Nat) (work_id : Nat)
deriving DecidableEq, Repr

/-- sender_task (work_generation.rs lines 78 to 95) as a trace function.
Each input pair holds the outcome of tx_io.wait_for_room for that
iteration and the assignment the work channel yields next.  On a
successful wait the loop receives the assignment, stores it in the work
registry obtaining a work ID, and synchronously sends both to hardware;
a failed wait panics the task (the expect), ending the trace. -/
def sender_loop (reg : WorkRegistry) : List (Bool × Nat) → List SenderEvent
  | [] => []
  | (room_ok, w) :: rest =>
    if room_ok then
      let p := reg.store_work w
      SenderEvent.wait_room_ok :: SenderEvent.recv_work w ::
        SenderEvent.store_work w p.1 :: SenderEvent.send_work w p.1 ::
          sender_loop p.2 rest
    else [SenderEvent.wait_room_err]

theorem getElem?_cons_add_four {α : Type} (a b c d : α) (l : List α) (m : Nat) :
    (a :: b :: c :: d :: l)[m + 4]? = l[m]? := by
  simp [List.getElem?_cons_succ]

/- ----------------------------------------------------------------- -/
/- Claim theorem C5                                                    -/
/- ----------------------------------------------------------------- -/

/-- Claim C5: in every sender-loop trace, a hardware send at position k
only happens as the fourth step of its iteration: position k-3 is a
successful backpressure wait, position k-2 receives exactly the sent
assignment from the work channel, and position k-1 stores that assignment
in the work registry under exactly the sent work ID.  In particular no
send_work occurs without a preceding successful wait_for_room. -/
theorem sender_loop_backpressure (reg : WorkRegistry) (inputs : List (Bool × Nat))
    (k w work_id : Nat)
    (hk : (sender_loop reg inputs)[k]? = some (SenderEvent.send_work w work_id)) :
    3 ≤ k ∧
    (sender_loop reg inputs)[k - 3]? = some SenderEvent.wait_room_ok ∧
    (sender_loop reg inputs)[k - 2]? = some (SenderEvent.recv_work w) ∧
    (sender_loop reg inputs)[k - 1]? = some (SenderEvent.store_work w work_id) := by
  induction inputs generalizing reg k with
  | nil => simp [sender_loop] at hk
  | cons head rest ih =>
    obtain ⟨room_ok, w0⟩ := head
    cases room_ok with
    | false =>
      simp only [sender_loop, Bool.false_eq_true, if_false] at hk ⊢
      match k, hk with
      | 0, hk => simp at hk
      | n + 1, hk => simp at hk
    | true =>
      simp only [sender_loop, if_true] at hk ⊢
      match k, hk with
      | 0, hk => simp at hk
      | 1, hk => simp at hk
      | 2, hk => simp at hk
      | 3, hk =>
        simp only [List.getElem?_cons_succ, List.getElem?_cons_zero] at hk
        obtain ⟨rfl, rfl⟩ : w0 = w ∧ (reg.store_work w0).1 = work_id := by
          simpa using hk
        exact ⟨le_refl 3, rfl, rfl, rfl⟩
      | n + 4, hk =>
        rw [getElem?_cons_add_four] at hk
        obtain ⟨h3, ha, hb, hc⟩ := ih (reg.store_work w0).2 n hk
        refine ⟨by omega, ?_, ?_, ?_⟩
        · have e : n + 4 - 3 = (n - 3) + 4 := by omega
          rw [e, getElem?_cons_add_four]
          exact ha
        · have e : n + 4 - 2 = (n - 2) + 4 := by omega
          rw [e, getElem?_cons_add_four]
          exact hb
        · have e : n + 4 - 1 = (n - 1) + 4 := by omega
          rw [e, getElem?_cons_add_four]
          exact hc

/-- Witness for C5 at a concrete input: a two-iteration trace with room
available both times; the send at position 7 carries the second
assignment (20) and the cyclically assigned ID 1, and is preceded by its
wait, receive and store steps. -/
theorem sender_loop_backpressure_witness :
    3 ≤ 7 ∧
    (sender_loop { id_limit := 4, next_id := 0, slots := [none, none, none, none] }
        [(true, 10), (true, 20)])[7 - 3]? = some SenderEvent.wait_room_ok ∧
    (sender_loop { id_limit := 4, next_id := 0, slots := [none, none, none, none] }
        [(true, 10), (true, 20)])[7 - 2]? = some (SenderEvent.recv_work 20) ∧
    (sender_loop { id_limit := 4, next_id := 0, slots := [none, none, none, none] }
        [(true, 10), (true, 20)])[7 - 1]? = some (SenderEvent.store_work 20 1) :=
  sender_loop_backpressure
    { id_limit := 4, next_id := 0, slots := [none, none, none, none] }
    [(true, 10), (true, 20)] 7 20 1 (by decide)

/- ----------------------------------------------------------------- -/
/- Group client moves (client.rs lines 250 to 280)                     -/
/- ----------------------------------------------------------------- -/

/-- scheduler::ClientHandle as stored in a Group list: the wrapped client
handle (the scheduling bookkeeping it also carries is irrelevant to the
move operation). -/
structure GroupClientHandle where
  client_handle : ClientHandle
deriving DecidableEq, Repr

/-- Group::move_client_to (client.rs lines 250 to 280) acting on the
locked list.  Out-of-range indices fail with Missing before any change;
otherwise the list is rebuilt by the source's slice concatenation and
the client handle now at index_to is returned.  The Rust indexing
expression cannot fail there; its result is modelled as an Option, shown
below to always be some in the success branch. -/
def move_client_to (l : List GroupClientHandle) (index_from index_to : Nat) :
    Except ClientError (List GroupClientHandle × Option ClientHandle) :=
  let len := l.length
  if index_from ≥ len ∨ index_to ≥ len then
    Except.error ClientError.Missing
  else
    let l1 :=
      if index_from > index_to then
        l.take index_to ++ (l.drop index_from).take 1 ++
          (l.drop index_to).take (index_from - index_to) ++ l.drop (index_from + 1)
      else if index_from < index_to then
        l.take index_from ++ (l.drop (index_from + 1)).take (index_to - index_from) ++
          (l.drop index_from).take 1 ++ l.drop (index_to + 1)
      else l
    Except.ok (l1, (l1[index_to]?).map (fun h => h.client_handle))

/- ----------------------------------------------------------------- -/
/- List facts for the move operation                                   -/
/- ----------------------------------------------------------------- -/

theorem getElem?_append_cons {α : Type} (l₁ : List α) (a : α) (l₂ : List α) :
    (l₁ ++ a :: l₂)[l₁.length]? = some a := by
  induction l₁ with
  | nil => simp
  | cons b t ih =>
    simp only [List.cons_append, List.length_cons, List.getElem?_cons_succ]
    exact ih

theorem eraseIdx_append_cons {α : Type} (l₁ : List α) (a : α) (l₂ : List α) :
    (l₁ ++ a :: l₂).eraseIdx l₁.length = l₁ ++ l₂ := by
  induction l₁ with
  | nil => simp
  | cons b t ih =>
    simp only [List.cons_append, List.length_cons, List.eraseIdx_cons_succ]
    rw [ih]

/-- Conclusions of a successful move, for a result list decomposed as
prefix, moved element, suffix. -/
theorem move_assembled (l A B : List GroupClientHandle) (i j : Nat)
    (hf : i < l.length) (hA : A.length = j) (hAB : A ++ B = l.eraseIdx i) :
    (A ++ l.get ⟨i, hf⟩ :: B).Perm l ∧
    (A ++ l.get ⟨i, hf⟩ :: B).length = l.length ∧
    (A ++ l.get ⟨i, hf⟩ :: B)[j]? = some (l.get ⟨i, hf⟩) ∧
    (A ++ l.get ⟨i, hf⟩ :: B).eraseIdx j = l.eraseIdx i := by
  have hsplit : l = l.take i ++ l[i] :: l.drop (i + 1) := by
    conv_lhs => rw [← List.take_append_drop i l]
    rw [← List.getElem_cons_drop l i hf]
  have hperm0 : (A ++ l.get ⟨i, hf⟩ :: B).Perm (l.get ⟨i, hf⟩ :: (A ++ B)) :=
    List.perm_middle
  have hperm1 : l.Perm (l[i] :: l.eraseIdx i) := by
    conv_lhs => rw [hsplit]
    rw [List.eraseIdx_eq_take_drop_succ]
    exact List.perm_middle
  have hperm : (A ++ l.get ⟨i, hf⟩ :: B).Perm l := by
    rw [hAB] at hperm0
    exact hperm0.trans hperm1.symm
  refine ⟨hperm, hperm.length_eq, ?_, ?_⟩
  · rw [← hA]
    exact getElem?_append_cons A _ B
  · rw [← hA, eraseIdx_append_cons A _ B]
    exact hAB

/- ----------------------------------------------------------------- -/
/- Claim theorem C10                                                   -/
/- ----------------------------------------------------------------- -/

/-- Claim C10: move_client_to fails with Missing and changes nothing when
either index is out of range; for in-range indices it returns the list in
which the element formerly at index_from now sits at index_to, every
other element keeps its relative order (erasing the moved element from
both lists gives the same remainder), the result is a permutation of the
old list of the same length, and the returned handle is the moved
element's client handle. -/
theorem move_client_to_spec (l : List GroupClientHandle) (index_from index_to : Nat) :
    (index_from ≥ l.length ∨ index_to ≥ l.length →
      move_client_to l index_from index_to = Except.error ClientError.Missing) ∧
    (∀ hf : index_from < l.length, index_to < l.length →
      ∃ l1, move_client_to l index_from index_to =
          Except.ok (l1, some (l.get ⟨index_from, hf⟩).client_handle) ∧
        l1.Perm l ∧ l1.length = l.length ∧
        l1[index_to]? = some (l.get ⟨index_from, hf⟩) ∧
        l1.eraseIdx index_to = l.eraseIdx index_from) := by
  constructor
  · intro h
    simp only [move_client_to]
    rw [if_pos h]
  · intro hf ht
    have hnot : ¬(index_from ≥ l.length ∨ index_to ≥ l.length) := by omega
    have w1 : (l.drop index_from).take 1 = [l[index_from]] := by
      rw [← List.getElem_cons_drop l index_from hf]
      rfl
    rcases Nat.lt_trichotomy index_from index_to with hlt | heq | hgt
    · -- index_from < index_to: the source's second slice concatenation
      have hL : l.take index_from ++
            (l.drop (index_from + 1)).take (index_to - index_from) ++
            (l.drop index_from).take 1 ++ l.drop (index_to + 1) =
          (l.take index_from ++
            (l.drop (index_from + 1)).take (index_to - index_from)) ++
            l.get ⟨index_from, hf⟩ ::
            l.drop (index_to + 1) := by
        rw [w1]
        simp [List.append_assoc]
      have hA : (l.take index_from ++
          (l.drop (index_from + 1)).take (index_to - index_from)).length = index_to := by
        simp only [List.length_append, List.length_take, List.length_drop]
        omega
      have h1 : (l.drop (index_from + 1)).drop (index_to - index_from) =
          l.drop (index_to + 1) := by
        rw [List.drop_drop]
        congr 1
        omega
      have h2 : (l.drop (index_from + 1)).take (index_to - index_from) ++
          l.drop (index_to + 1) = l.drop (index_from + 1) := by
        conv_rhs => rw [← List.take_append_drop (index_to - index_from) (l.drop (index_from + 1))]
        rw [h1]
      have hAB : (l.take index_from ++
          (l.drop (index_from + 1)).take (index_to - index_from)) ++
          l.drop (index_to + 1) = l.eraseIdx index_from := by
        rw [List.eraseIdx_eq_take_drop_succ, List.append_assoc, h2]
      obtain ⟨hperm, hlen, hget, herase⟩ :=
        move_assembled l _ _ index_from index_to hf hA hAB
      refine ⟨_, ?_, hperm, hlen, hget, herase⟩
      simp only [move_client_to]
      rw [if_neg hnot, if_neg (by omega : ¬ index_from > index_to), if_pos hlt, hL, hget]
      rfl
    · -- index_from = index_to: neither branch fires, the list is unchanged
      subst heq
      refine ⟨l, ?_, List.Perm.refl l, rfl, ?_, rfl⟩
      · simp only [move_client_to]
        rw [if_neg hnot, if_neg (by omega : ¬ index_from > index_from),
          if_neg (by omega : ¬ index_from < index_from), List.getElem?_eq_getElem hf]
        rfl
      · rw [List.getElem?_eq_getElem hf]
        rfl
    · -- index_to < index_from: the source's first slice concatenation
      have hL : l.take index_to ++ (l.drop index_from).take 1 ++
            (l.drop index_to).take (index_from - index_to) ++
            l.drop (index_from + 1) =
          l.take index_to ++
            l.get ⟨index_from, hf⟩ ::
            ((l.drop index_to).take (index_from - index_to) ++
              l.drop (index_from + 1)) := by
        rw [w1]
        simp [List.append_assoc]
      have hA : (l.take index_to).length = index_to := by
        simp only [List.length_take]
        omega
      have h1 : l.take index_to ++ (l.drop index_to).take (index_from - index_to) =
          l.take index_from := by
        rw [← List.take_add]
        congr 1
        omega
      have hAB : l.take index_to ++
          ((l.drop index_to).take (index_from - index_to) ++
            l.drop (index_from + 1)) = l.eraseIdx index_from := by
        rw [List.eraseIdx_eq_take_drop_succ, ← h1, List.append_assoc]
      obtain ⟨hperm, hlen, hget, herase⟩ :=
        move_assembled l _ _ index_from index_to hf hA hAB
      refine ⟨_, ?_, hperm, hlen, hget, herase⟩
      simp only [move_client_to]
      rw [if_neg hnot, if_pos hgt, hL, hget]
      rfl

/-- Witness for C10 at concrete inputs: an out-of-range index fails with
Missing, and moving the element at index 2 of a three-element list to
index 0 rotates the list to the right, returning the moved handle. -/
theorem move_client_to_spec_witness :
    move_client_to
        [{ client_handle := { node := { unique_ptr := 0, payload := 0 }, descriptor := 0 } },
         { client_handle := { node := { unique_ptr := 1, payload := 0 }, descriptor := 0 } },
         { client_handle := { node := { unique_ptr := 2, payload := 0 }, descriptor := 0 } }]
        5 0 = Except.error ClientError.Missing ∧
    ∃ l1, move_client_to
        [{ client_handle := { node := { unique_ptr := 0, payload := 0 }, descriptor := 0 } },
         { client_handle := { node := { unique_ptr := 1, payload := 0 }, descriptor := 0 } },
         { client_handle := { node := { unique_ptr := 2, payload := 0 }, descriptor := 0 } }]
        2 0 =
        Except.ok (l1, some { node := { unique_ptr := 2, payload := 0 }, descriptor := 0 }) ∧
      l1.Perm
        [{ client_handle := { node := { unique_ptr := 0, payload := 0 }, descriptor := 0 } },
         { client_handle := { node := { unique_ptr := 1, payload := 0 }, descriptor := 0 } },
         { client_handle := { node := { unique_ptr := 2, payload := 0 }, descriptor := 0 } }] ∧
      l1.length =
        ([{ client_handle := { node := { unique_ptr := 0, payload := 0 }, descriptor := 0 } },
          { client_handle := { node := { unique_ptr := 1, payload := 0 }, descriptor := 0 } },
          { client_handle := { node := { unique_ptr := 2, payload := 0 }, descriptor := 0 } }] :
            List GroupClientHandle).length ∧
      l1[0]? =
        some { client_handle := { node := { unique_ptr := 2, payload := 0 }, descriptor := 0 } } ∧
      l1.eraseIdx 0 =
        ([{ client_handle := { node := { unique_ptr := 0, payload := 0 }, descriptor := 0 } },
          { client_handle := { node := { unique_ptr := 1, payload := 0 }, descriptor := 0 } },
          { client_handle := { node := { unique_ptr := 2, payload := 0 }, descriptor := 0 } }] :
            List GroupClientHandle).eraseIdx 2 :=
  ⟨(move_client_to_spec
      [{ client_handle := { node := { unique_ptr := 0, payload := 0 }, descriptor := 0 } },
       { client_handle := { node := { unique_ptr := 1, payload := 0 }, descriptor := 0 } },
       { client_handle := { node := { unique_ptr := 2, payload := 0 }, descriptor := 0 } }]
      5 0).1 (by left; decide),
   (move_client_to_spec
      [{ client_handle := { node := { unique_ptr := 0, payload := 0 }, descriptor := 0 } },
       { client_handle := { node := { unique_ptr := 1, payload := 0 }, descriptor := 0 } },
       { client_handle := { node := { unique_ptr := 2, payload := 0 }, descriptor := 0 } }]
      2 0).2 (by decide) (by decide)⟩
